import Mathlib

/-!
Verification of the note-synthesis core of `src/music.py` (Keyboard Music Lab).

The Python code is shallowly embedded: sample counts and Python `int`/`round`
arithmetic are modelled over `ℤ`/`ℚ`, real-valued signal mathematics over `ℝ`,
fallible numpy operations (slice assignment with shape mismatch, out-of-range
indexing, `np.zeros` on a negative size) return `Option`, and the call-time
randomness of the percussive click is an explicit oracle argument
`noise : ℕ → ℝ`.
-/

namespace MusicLab

/-- `SAMPLE_RATE = 44100` from the settings block of `src/music.py`. -/
def SAMPLE_RATE : ℚ := 44100

/-- `C4_FREQ = 261.625565`, the base reference pitch. -/
noncomputable def C4_FREQ : ℝ := 261.625565

/-- Python `int(x)`: truncation toward zero, on an exact rational. -/
def pyInt (x : ℚ) : ℤ := if 0 ≤ x then ⌊x⌋ else ⌈x⌉

/-- Python `round(x)`: round half to even (banker's rounding), on an exact
rational. Agrees with `round` away from exact halves. -/
def pyRound (x : ℚ) : ℤ :=
  if 2 * (x - ⌊x⌋) = 1 then (if ⌊x⌋ % 2 = 0 then ⌊x⌋ else ⌊x⌋ + 1) else round x

/-- Python `round(x, 3)`: round to 3 decimal places, used for the cache key. -/
def round3 (x : ℚ) : ℚ := (pyRound (x * 1000) : ℚ) / 1000

/-- `semitone_to_freq` from `src/music.py` lines 40-42:
`total = semitone_offset + octave_shift * 12`,
`C4_FREQ * 2 ** (total / 12)` (real power). -/
noncomputable def semitone_to_freq (semitone_offset octave_shift : ℤ) : ℝ :=
  C4_FREQ * (2 : ℝ) ^ (((semitone_offset + octave_shift * 12 : ℤ) : ℝ) / 12)

/-- `wave_sine` from line 74: `np.sin(phase)`, pointwise. -/
noncomputable def wave_sine (phase : ℝ) : ℝ := Real.sin phase

/-- `np.sign` on a real scalar. -/
noncomputable def np_sign (x : ℝ) : ℝ := if 0 < x then 1 else if x < 0 then -1 else 0

/-- `wave_square` from line 75: `np.sign(np.sin(phase))`. -/
noncomputable def wave_square (phase : ℝ) : ℝ := np_sign (Real.sin phase)

/-- `wave_saw` from line 76:
`2.0 * (phase / (2π) - np.floor(0.5 + phase / (2π)))`. -/
noncomputable def wave_saw (phase : ℝ) : ℝ :=
  2 * (phase / (2 * Real.pi) - ⌊0.5 + phase / (2 * Real.pi)⌋)

/-- `wave_triangle` from line 77: `2.0 * np.abs(wave_saw(phase)) - 1.0`. -/
noncomputable def wave_triangle (phase : ℝ) : ℝ := 2 * |wave_saw phase| - 1

/-- `np.linspace(a, b, num, endpoint=False)`: `num` points `a + i*(b-a)/num`. -/
def linspace_noend (a b : ℚ) (num : ℕ) : List ℚ :=
  (List.range num).map fun i : ℕ => a + (b - a) * (i : ℚ) / (num : ℚ)

/-- `np.linspace(a, b, num)` (endpoint included): for `num ≥ 2` the points are
`a + i*(b-a)/(num-1)`; for `num ≤ 1` the list is `[a]` or `[]`. -/
def linspace_withend (a b : ℚ) (num : ℕ) : List ℚ :=
  if num ≤ 1 then List.replicate num a
  else (List.range num).map fun i : ℕ => a + (b - a) * (i : ℚ) / ((num : ℚ) - 1)

/-- numpy slice assignment `env[idx:idx+len(vals)] = vals`. The slice is
clipped to the array bounds; the assignment succeeds only if the value array
matches the clipped slice length (or has length 1, which broadcasts).
A shape mismatch raises `ValueError`, modelled as `none`. -/
def sliceAssignArr (env : List ℚ) (idx : ℕ) (vals : List ℚ) : Option (List ℚ) :=
  let lo := min idx env.length
  let hi := min (idx + vals.length) env.length
  if vals.length = hi - lo then some (env.take lo ++ vals ++ env.drop hi)
  else if vals.length = 1 then
    some (env.take lo ++ List.replicate (hi - lo) (vals.headD 0) ++ env.drop hi)
  else none

/-- numpy slice assignment `env[idx:idx+count] = v` with a scalar `v`:
a scalar broadcasts to any clipped slice length, so this never fails. -/
def sliceAssignScalar (env : List ℚ) (idx count : ℕ) (v : ℚ) : List ℚ :=
  let lo := min idx env.length
  let hi := min (idx + count) env.length
  env.take lo ++ List.replicate (hi - lo) v ++ env.drop hi

/-- Attack block of `adsr_envelope` (lines 56-58):
`if a > 0: env[idx:idx+a] = np.linspace(0, 1, a, endpoint=False); idx += a`. -/
def adsrAttack (a : ℤ) (env : List ℚ) : Option (List ℚ × ℕ) :=
  if 0 < a then
    (sliceAssignArr env 0 (linspace_noend 0 1 a.toNat)).map fun e => (e, a.toNat)
  else some (env, 0)

/-- Decay block (lines 59-61):
`if d > 0: env[idx:idx+d] = np.linspace(1, sustain, d, endpoint=False); idx += d`. -/
def adsrDecay (d : ℤ) (sustain : ℚ) (p : List ℚ × ℕ) : Option (List ℚ × ℕ) :=
  if 0 < d then
    (sliceAssignArr p.1 p.2 (linspace_noend 1 sustain d.toNat)).map
      fun e => (e, p.2 + d.toNat)
  else some p

/-- Sustain block (lines 62-64): `if s > 0: env[idx:idx+s] = sustain; idx += s`. -/
def adsrSustain (s : ℤ) (sustain : ℚ) (p : List ℚ × ℕ) : List ℚ × ℕ :=
  if 0 < s then (sliceAssignScalar p.1 p.2 s.toNat sustain, p.2 + s.toNat) else p

/-- Release block (lines 65-68): `if r > 0: start = env[idx-1] if idx > 0 else
sustain; env[idx:idx+r] = np.linspace(start, 0, r, endpoint=True); idx += r`.
The read `env[idx-1]` raises `IndexError` when out of range, modelled as `none`. -/
def adsrRelease (r : ℤ) (sustain : ℚ) (p : List ℚ × ℕ) : Option (List ℚ × ℕ) :=
  if 0 < r then
    (if 0 < p.2 then p.1.get? (p.2 - 1) else some sustain).bind fun start =>
      (sliceAssignArr p.1 p.2 (linspace_withend start 0 r.toNat)).map
        fun e => (e, p.2 + r.toNat)
  else some p

/-- Tail fill (lines 70-71): `if idx < n: env[idx:] = 0.0`. -/
def adsrTail (N : ℕ) (p : List ℚ × ℕ) : List ℚ :=
  if p.2 < N then sliceAssignScalar p.1 p.2 (p.1.length - p.2) 0 else p.1

/-- `adsr_envelope` from `src/music.py` lines 47-72. Derived sample counts
`a, d, r` use Python `int` truncation; `s = max(0, n - (a + d + r))`;
`np.zeros(n)` raises for `n < 0` (modelled as `none`). -/
def adsr_envelope (n : ℤ) (attack decay sustain release : ℚ) : Option (List ℚ) :=
  let a := pyInt (attack * SAMPLE_RATE)
  let d := pyInt (decay * SAMPLE_RATE)
  let r := pyInt (release * SAMPLE_RATE)
  let s := max 0 (n - (a + d + r))
  if n < 0 then none
  else
    Option.map (adsrTail n.toNat)
      ((Option.map (adsrSustain s sustain)
          ((adsrAttack a (List.replicate n.toNat 0)).bind (adsrDecay d sustain))).bind
        (adsrRelease r sustain))

/-- Python truncation toward zero of a real, the first half of numpy
`astype(np.int16)` on a float array. -/
noncomputable def pyTrunc (x : ℝ) : ℤ := if 0 ≤ x then ⌊x⌋ else ⌈x⌉

/-- Wrap-around of an integer into the int16 range, the second half of numpy
`astype(np.int16)`. -/
def toInt16 (z : ℤ) : ℤ := (z + 32768) % 65536 - 32768

/-- Lines 131-136 of `synth_note`: `np.clip(sig, -1, 1)`, `sig *= volume`,
`mono = (sig * 32767).astype(np.int16)`, `stereo = np.column_stack((mono, mono))`. -/
noncomputable def postprocess (volume : ℚ) (sig : List ℝ) : List (ℤ × ℤ) :=
  let clipped := sig.map fun x => min 1 (max (-1) x)
  let scaled := clipped.map fun x => x * (volume : ℝ)
  let mono := scaled.map fun x => toInt16 (pyTrunc (x * 32767))
  mono.map fun m => (m, m)

/-- Elementwise product `wave * env` of a waveform sampled at indices
`0, ..., nn-1` with the envelope array (numpy array multiplication). -/
noncomputable def applyEnv (wave : ℕ → ℝ) (nn : ℕ) (env : List ℚ) : List ℝ :=
  List.zipWith (fun (i : ℕ) (e : ℚ) => wave i * (e : ℝ)) (List.range nn) env

/-- The per-instrument signal of `synth_note` (lines 80-129): the branch on the
instrument name, producing the raw waveform multiplied by that instrument's
ADSR envelope. `noise i` models the i-th draw of
`np.random.uniform(-0.15, 0.15, click_len)` used only by "Piano-ish". -/
noncomputable def synth_sig (freq : ℝ) (duration : ℚ) (instrument : String)
    (noise : ℕ → ℝ) : Option (List ℝ) :=
  let n := pyInt (duration * SAMPLE_RATE)
  let nn := n.toNat
  let t : ℕ → ℝ := fun i => (i : ℝ) / 44100
  let phase : ℕ → ℝ := fun i => 2 * Real.pi * freq * t i
  if instrument = "Sine" then
    (adsr_envelope n 0.01 0.06 0.75 0.18).map
      (applyEnv (fun i => wave_sine (phase i)) nn)
  else if instrument = "Square" then
    (adsr_envelope n 0.005 0.05 0.55 0.12).map
      (applyEnv (fun i => wave_square (phase i)) nn)
  else if instrument = "Triangle" then
    (adsr_envelope n 0.01 0.08 0.65 0.15).map
      (applyEnv (fun i => wave_triangle (phase i)) nn)
  else if instrument = "Saw" then
    (adsr_envelope n 0.01 0.10 0.5 0.18).map
      (applyEnv (fun i => wave_saw (phase i)) nn)
  else if instrument = "Organ" then
    (adsr_envelope n 0.02 0.06 0.95 0.22).map
      (applyEnv (fun i => 0.70 * wave_sine (phase i) + 0.20 * wave_sine (2 * phase i) +
        0.10 * wave_sine (3 * phase i)) nn)
  else if instrument = "Bell" then
    (adsr_envelope n 0.002 0.20 0.12 0.35).map
      (applyEnv (fun i => 0.70 * wave_sine (phase i) + 0.35 * wave_sine (2.71 * phase i) +
        0.20 * wave_sine (5.18 * phase i)) nn)
  else if instrument = "Piano-ish" then
    (adsr_envelope n 0.003 0.22 0.15 0.35).map fun env =>
      let base := applyEnv (fun i => 0.55 * wave_sine (phase i) +
        0.28 * wave_sine (2 * phase i) + 0.12 * wave_sine (3 * phase i) +
        0.05 * wave_sine (4 * phase i)) nn env
      let click_len := min (pyInt ((0.008 : ℚ) * SAMPLE_RATE)).toNat nn
      base.mapIdx fun i x =>
        if i < click_len then
          x + noise i * (((linspace_withend 1 0 click_len).getD i 0 : ℚ) : ℝ)
        else x
  else if instrument = "Chiptune" then
    (adsr_envelope n 0.002 0.04 0.6 0.08).map
      (applyEnv (fun i => np_sign (Real.sin (2 * Real.pi * freq *
        (1 + 0.003 * Real.sin (2 * Real.pi * 6.0 * t i)) * t i))) nn)
  else
    (adsr_envelope n 0.01 0.08 0.6 0.15).map
      (applyEnv (fun i => wave_sine (phase i)) nn)

/-- `synth_note` from `src/music.py` lines 79-136: the per-instrument signal
followed by clip, volume scaling, int16 quantization and stereo duplication. -/
noncomputable def synth_note (freq : ℝ) (duration : ℚ) (instrument : String)
    (volume : ℚ) (noise : ℕ → ℝ) : Option (List (ℤ × ℤ)) :=
  (synth_sig freq duration instrument noise).map (postprocess volume)

/-- The `else` fallback of `synth_note` (lines 128-129) followed by the shared
postprocessing: a pure sine at the carrier phase times the default envelope. -/
noncomputable def default_recipe (freq : ℝ) (duration : ℚ) (volume : ℚ) :
    Option (List (ℤ × ℤ)) :=
  ((adsr_envelope (pyInt (duration * SAMPLE_RATE)) 0.01 0.08 0.6 0.15).map
    (applyEnv (fun i => wave_sine (2 * Real.pi * freq * ((i : ℝ) / 44100)))
      (pyInt (duration * SAMPLE_RATE)).toNat)).map (postprocess volume)

/-- The `(attack, decay, sustain, release)` envelope parameters each branch of
`synth_note` passes to `adsr_envelope` (the last component is the default). -/
def envParams (instrument : String) : ℚ × ℚ × ℚ × ℚ :=
  if instrument = "Sine" then (0.01, 0.06, 0.75, 0.18)
  else if instrument = "Square" then (0.005, 0.05, 0.55, 0.12)
  else if instrument = "Triangle" then (0.01, 0.08, 0.65, 0.15)
  else if instrument = "Saw" then (0.01, 0.10, 0.5, 0.18)
  else if instrument = "Organ" then (0.02, 0.06, 0.95, 0.22)
  else if instrument = "Bell" then (0.002, 0.20, 0.12, 0.35)
  else if instrument = "Piano-ish" then (0.003, 0.22, 0.15, 0.35)
  else if instrument = "Chiptune" then (0.002, 0.04, 0.6, 0.08)
  else (0.01, 0.08, 0.6, 0.15)

/-- Total attack+decay+release sample count of an instrument's envelope: the
smallest note length (in samples) that `adsr_envelope` accepts for it. -/
def minSamples (instrument : String) : ℤ :=
  pyInt ((envParams instrument).1 * SAMPLE_RATE) +
  pyInt ((envParams instrument).2.1 * SAMPLE_RATE) +
  pyInt ((envParams instrument).2.2.2 * SAMPLE_RATE)

/-- The render-cache key from `get_sound` (line 210):
`(instrument, octave, semitone, round(volume, 3))`. -/
abbrev RenderKey := String × ℤ × ℤ × ℚ

/-- The render cache `sound_cache`: a Python dict from key to the sound made
from the rendered buffer, modelled as an association list. -/
abbrev Cache := List (RenderKey × List (ℤ × ℤ))

/-- Python dict lookup `key in sound_cache` / `sound_cache[key]`. -/
def cacheLookup (c : Cache) (k : RenderKey) : Option (List (ℤ × ℤ)) :=
  match c with
  | [] => none
  | (k', v) :: rest => if k' = k then some v else cacheLookup rest k

/-- `get_sound` from `src/music.py` lines 209-218. The returned `Bool` records
whether the synthesizer was invoked (the render call-counter the spec suggests
for tests): `false` on a cache hit, `true` on a miss. `pygame.sndarray.
make_sound` is the identity on the buffer content in this model. A `none`
result models an exception escaping from `synth_note`. -/
noncomputable def get_sound (cache : Cache) (inst : String) (octv semitone : ℤ)
    (volume note_duration : ℚ) (noise : ℕ → ℝ) :
    Option (List (ℤ × ℤ) × Cache × Bool) :=
  let key : RenderKey := (inst, octv, semitone, round3 volume)
  match cacheLookup cache key with
  | some snd => some (snd, cache, false)
  | none =>
    (synth_note (semitone_to_freq semitone octv) note_duration inst volume noise).map
      fun audio => (audio, (key, audio) :: cache, true)

/-- `KEYBOARD_MAP` from lines 18-33, reduced to `(pygame key code, semitone)`;
the codes are the ASCII codes pygame assigns to `K_a`, `K_w`, .... -/
def KEYBOARD_MAP : List (ℕ × ℤ) :=
  [(97, 0), (119, 1), (115, 2), (101, 3), (100, 4), (102, 5), (116, 6),
   (103, 7), (121, 8), (104, 9), (117, 10), (106, 11), (107, 12)]

/-- The instrument button names from line 159. -/
def instruments : List String :=
  ["Piano-ish", "Organ", "Bell", "Sine", "Triangle", "Saw", "Square", "Chiptune"]

/-- `note_duration = 6.0` from line 163. -/
def note_duration : ℚ := 6

/-- The mutable state of `main` that the event loop updates: the selected
instrument, octave shift, volume, the render cache, the `active_channels`
dict (input key ↦ playback channel handle), plus two counters used to model
the collaborators: `next_channel` numbers play attempts on the mixer and
`render_count` counts synthesizer invocations. -/
structure AppState where
  instrument : String
  octave_shift : ℤ
  volume : ℚ
  sound_cache : Cache
  active_channels : List (ℕ × ℕ)
  next_channel : ℕ
  render_count : ℕ

/-- Python `pk in active_channels` on the modelled dict. -/
def hasKey (l : List (ℕ × ℕ)) (k : ℕ) : Bool := l.any fun p => p.1 == k

/-- The input events the loop of `main` reacts to: `KEYDOWN` with a pygame key
code, `KEYUP`, and the four mouse-click actions (lines 264-284); the button
rectangles are disjoint, so one click triggers at most one action. -/
inductive Event where
  | keydown (key : ℕ)
  | keyup (key : ℕ)
  | clickInstrument (name : String)
  | clickOctDown
  | clickOctUp
  | clickVolDown
  | clickVolUp

/-- One iteration of the `for pk, semi, ... in KEYBOARD_MAP` loop on a KEYDOWN
event (lines 252-257): if the event key matches `pk` and `pk` has no active
channel, render (through the cache), call `snd.play()` on the mixer — modelled
by the external `play` function on the attempt counter, per the spec's opaque
playback collaborator — and record the channel if one was returned. -/
noncomputable def noteTrigger (nz : ℕ → ℕ → ℝ) (play : ℕ → Option ℕ) (key : ℕ)
    (acc : Option AppState) (entry : ℕ × ℤ) : Option AppState :=
  acc.bind fun s =>
    if key = entry.1 ∧ hasKey s.active_channels entry.1 = false then
      (get_sound s.sound_cache s.instrument s.octave_shift entry.2 s.volume
        note_duration (nz s.render_count)).map fun out =>
          match play s.next_channel with
          | some ch =>
            { s with sound_cache := out.2.1,
                     render_count := s.render_count + (if out.2.2 then 1 else 0),
                     active_channels := s.active_channels ++ [(entry.1, ch)],
                     next_channel := s.next_channel + 1 }
          | none =>
            { s with sound_cache := out.2.1,
                     render_count := s.render_count + (if out.2.2 then 1 else 0),
                     next_channel := s.next_channel + 1 }
    else acc

/-- The KEYDOWN handler (lines 234-257): bracket keys 91/93 adjust the octave
and clear the cache, minus/equals 45/61 adjust the volume and clear the cache,
then the note-key loop runs. -/
noncomputable def stepKeydown (nz : ℕ → ℕ → ℝ) (play : ℕ → Option ℕ) (key : ℕ)
    (s : AppState) : Option AppState :=
  let s1 := if key = 91 then
    { s with octave_shift := max (-2) (s.octave_shift - 1), sound_cache := [] } else s
  let s2 := if key = 93 then
    { s1 with octave_shift := min 2 (s1.octave_shift + 1), sound_cache := [] } else s1
  let s3 := if key = 45 then
    { s2 with volume := max 0.05 (s2.volume - 0.05), sound_cache := [] } else s2
  let s4 := if key = 61 then
    { s3 with volume := min 1.0 (s3.volume + 0.05), sound_cache := [] } else s3
  KEYBOARD_MAP.foldl (noteTrigger nz play key) (some s4)

/-- One event-loop step of `main` (lines 230-284). KEYUP fades out and deletes
the key's channel; the mouse-click events mirror lines 264-284. -/
noncomputable def step (nz : ℕ → ℕ → ℝ) (play : ℕ → Option ℕ) (s : AppState)
    (e : Event) : Option AppState :=
  match e with
  | .keydown key => stepKeydown nz play key s
  | .keyup key =>
    some (if hasKey s.active_channels key then
      { s with active_channels := s.active_channels.filter fun p => ¬ p.1 = key }
    else s)
  | .clickInstrument name =>
    some (if name ∈ instruments then { s with instrument := name, sound_cache := [] }
      else s)
  | .clickOctDown =>
    some { s with octave_shift := max (-2) (s.octave_shift - 1), sound_cache := [] }
  | .clickOctUp =>
    some { s with octave_shift := min 2 (s.octave_shift + 1), sound_cache := [] }
  | .clickVolDown =>
    some { s with volume := max 0.05 (s.volume - 0.05), sound_cache := [] }
  | .clickVolUp =>
    some { s with volume := min 1.0 (s.volume + 0.05), sound_cache := [] }

/-- The initial state of `main` (lines 159-166). -/
def initState : AppState :=
  { instrument := "Piano-ish", octave_shift := 0, volume := 0.45,
    sound_cache := [], active_channels := [], next_channel := 0, render_count := 0 }

/-- Run the event loop on a list of input events from the initial state. -/
noncomputable def runEvents (nz : ℕ → ℕ → ℝ) (play : ℕ → Option ℕ)
    (events : List Event) : Option AppState :=
  events.foldlM (step nz play) initState

/-- The active-note invariant: the `active_channels` dict holds at most one
handle per input key, and only note keys appear in it. -/
abbrev activeKeysOK (s : AppState) : Prop :=
  (s.active_channels.map Prod.fst).Nodup ∧
  ∀ p ∈ s.active_channels, p.1 ∈ KEYBOARD_MAP.map Prod.fst

theorem pyInt_eq_of (x : ℚ) (z : ℤ) (h0 : 0 ≤ x) (h1 : (z : ℚ) ≤ x)
    (h2 : x < (z : ℚ) + 1) : pyInt x = z := by
  unfold pyInt
  rw [if_pos h0]
  exact Int.floor_eq_iff.mpr ⟨h1, by push_cast; linarith⟩

theorem sliceAssignArr_none (env : List ℚ) (idx : ℕ) (vals : List ℚ)
    (h1 : vals.length ≠ min (idx + vals.length) env.length - min idx env.length)
    (h2 : vals.length ≠ 1) : sliceAssignArr env idx vals = none := by
  unfold sliceAssignArr
  rw [if_neg h1, if_neg h2]

theorem length_linspace_noend (a b : ℚ) (num : ℕ) :
    (linspace_noend a b num).length = num := by
  unfold linspace_noend
  rw [List.length_map, List.length_range]

theorem length_linspace_withend (a b : ℚ) (num : ℕ) :
    (linspace_withend a b num).length = num := by
  unfold linspace_withend
  split
  · rw [List.length_replicate]
  · rw [List.length_map, List.length_range]

theorem sliceAssignArr_fits (env : List ℚ) (idx : ℕ) (vals : List ℚ)
    (h : idx + vals.length ≤ env.length) :
    sliceAssignArr env idx vals =
      some (env.take idx ++ vals ++ env.drop (idx + vals.length)) := by
  unfold sliceAssignArr
  rw [Nat.min_eq_left (by omega), Nat.min_eq_left (by omega),
    if_pos (by omega : vals.length = idx + vals.length - idx)]

theorem sliceAssignArr_fits_length (env : List ℚ) (idx : ℕ) (vals : List ℚ)
    (h : idx + vals.length ≤ env.length) :
    (env.take idx ++ vals ++ env.drop (idx + vals.length)).length = env.length := by
  simp only [List.length_append, List.length_take, List.length_drop]
  omega

theorem sliceAssignScalar_length (env : List ℚ) (idx count : ℕ) (v : ℚ) :
    (sliceAssignScalar env idx count v).length = env.length := by
  simp only [sliceAssignScalar, List.length_append, List.length_take,
    List.length_replicate, List.length_drop]
  omega

theorem adsrAttack_spec (a : ℤ) (env : List ℚ) (ha : 0 ≤ a)
    (hfit : a.toNat ≤ env.length) :
    ∃ e, adsrAttack a env = some (e, a.toNat) ∧ e.length = env.length := by
  unfold adsrAttack
  by_cases h : 0 < a
  · rw [if_pos h,
      sliceAssignArr_fits env 0 _ (by simpa [length_linspace_noend] using hfit)]
    refine ⟨_, rfl, ?_⟩
    simpa [length_linspace_noend] using
      sliceAssignArr_fits_length env 0 (linspace_noend 0 1 a.toNat)
        (by simpa [length_linspace_noend] using hfit)
  · rw [if_neg h]
    exact ⟨env, by rw [(by omega : a.toNat = 0)], rfl⟩

theorem adsrDecay_spec (d : ℤ) (sv : ℚ) (env : List ℚ) (idx : ℕ) (hd : 0 ≤ d)
    (hfit : idx + d.toNat ≤ env.length) :
    ∃ e, adsrDecay d sv (env, idx) = some (e, idx + d.toNat) ∧
      e.length = env.length := by
  unfold adsrDecay
  by_cases h : 0 < d
  · rw [if_pos h,
      sliceAssignArr_fits env idx _ (by simpa [length_linspace_noend] using hfit)]
    refine ⟨_, rfl, ?_⟩
    simpa [length_linspace_noend] using
      sliceAssignArr_fits_length env idx (linspace_noend 1 sv d.toNat)
        (by simpa [length_linspace_noend] using hfit)
  · rw [if_neg h]
    exact ⟨env, by rw [(by omega : d.toNat = 0), Nat.add_zero], rfl⟩

theorem adsrSustain_spec (s : ℤ) (sv : ℚ) (env : List ℚ) (idx : ℕ) (hs : 0 ≤ s) :
    (adsrSustain s sv (env, idx)).1.length = env.length ∧
    (adsrSustain s sv (env, idx)).2 = idx + s.toNat := by
  unfold adsrSustain
  by_cases h : 0 < s
  · rw [if_pos h]
    exact ⟨sliceAssignScalar_length env idx s.toNat sv, rfl⟩
  · rw [if_neg h]
    exact ⟨rfl, by omega⟩

theorem adsrRelease_spec (r : ℤ) (sv : ℚ) (p : List ℚ × ℕ) (hr : 0 ≤ r)
    (hfit : p.2 + r.toNat ≤ p.1.length) :
    ∃ e, adsrRelease r sv p = some (e, p.2 + r.toNat) ∧ e.length = p.1.length := by
  unfold adsrRelease
  by_cases h : 0 < r
  · rw [if_pos h]
    obtain ⟨st, hst⟩ : ∃ st, (if 0 < p.2 then p.1.get? (p.2 - 1) else some sv) = some st := by
      by_cases hp : 0 < p.2
      · rw [if_pos hp]
        have hlt : p.2 - 1 < p.1.length := by omega
        exact ⟨_, List.get?_eq_get hlt⟩
      · exact ⟨sv, by rw [if_neg hp]⟩
    rw [hst, Option.some_bind,
      sliceAssignArr_fits p.1 p.2 _ (by simpa [length_linspace_withend] using hfit)]
    refine ⟨_, rfl, ?_⟩
    simpa [length_linspace_withend] using
      sliceAssignArr_fits_length p.1 p.2 (linspace_withend st 0 r.toNat)
        (by simpa [length_linspace_withend] using hfit)
  · rw [if_neg h]
    refine ⟨p.1, ?_, rfl⟩
    rw [(by omega : r.toNat = 0), Nat.add_zero]

theorem adsrTail_length (N : ℕ) (p : List ℚ × ℕ) :
    (adsrTail N p).length = p.1.length := by
  unfold adsrTail
  split
  · exact sliceAssignScalar_length p.1 p.2 (p.1.length - p.2) 0
  · rfl

/-- If the derived attack, decay and release sample counts are nonnegative and
fit inside `n`, the envelope is built without error and has exactly `n.toNat`
entries. -/
theorem adsr_total (n : ℤ) (attack decay sustain release : ℚ)
    (ha : 0 ≤ pyInt (attack * SAMPLE_RATE)) (hd : 0 ≤ pyInt (decay * SAMPLE_RATE))
    (hr : 0 ≤ pyInt (release * SAMPLE_RATE))
    (hsum : pyInt (attack * SAMPLE_RATE) + pyInt (decay * SAMPLE_RATE) +
      pyInt (release * SAMPLE_RATE) ≤ n) :
    ∃ env, adsr_envelope n attack decay sustain release = some env ∧
      env.length = n.toNat := by
  unfold adsr_envelope
  set a := pyInt (attack * SAMPLE_RATE) with hadef
  set d := pyInt (decay * SAMPLE_RATE) with hddef
  set r := pyInt (release * SAMPLE_RATE) with hrdef
  rw [if_neg (by omega : ¬ n < 0)]
  obtain ⟨e1, h1, l1⟩ := adsrAttack_spec a (List.replicate n.toNat 0) ha
    (by simp only [List.length_replicate]; omega)
  rw [h1, Option.some_bind]
  obtain ⟨e2, h2, l2⟩ := adsrDecay_spec d sustain e1 a.toNat hd
    (by simp only [l1, List.length_replicate]; omega)
  rw [h2, Option.map_some']
  have hs0 : (0 : ℤ) ≤ max 0 (n - (a + d + r)) := le_max_left _ _
  obtain ⟨l3, i3⟩ := adsrSustain_spec (max 0 (n - (a + d + r))) sustain
    e2 (a.toNat + d.toNat) hs0
  obtain ⟨e4, h4, l4⟩ := adsrRelease_spec r sustain
    (adsrSustain (max 0 (n - (a + d + r))) sustain (e2, a.toNat + d.toNat)) hr
    (by
      rw [l3, i3, l2, l1, List.length_replicate]
      omega)
  rw [Option.some_bind, h4, Option.map_some']
  refine ⟨_, rfl, ?_⟩
  rw [adsrTail_length, l4, l3, l2, l1, List.length_replicate]

/-- C2 (counterexample): with `n = 10` samples and `attack = 0.001` seconds the
attack segment has 44 samples; numpy slice assignment cannot broadcast 44
values into the clipped 10-slot slice and `adsr_envelope` raises `ValueError`
instead of shortening the segment, contradicting the claim. -/
theorem C2_counterexample :
    adsr_envelope 10 (1/1000) 0 (6/10) 0 = none := by
  have ha : pyInt ((1/1000 : ℚ) * SAMPLE_RATE) = 44 :=
    pyInt_eq_of _ _ (by norm_num [SAMPLE_RATE]) (by norm_num [SAMPLE_RATE])
      (by norm_num [SAMPLE_RATE])
  have hattack : adsrAttack 44 (List.replicate (10 : ℤ).toNat 0) = none := by
    unfold adsrAttack
    rw [if_pos (by norm_num), sliceAssignArr_none, Option.map_none']
    · simp [length_linspace_noend]
    · simp [length_linspace_noend]
  simp only [adsr_envelope, ha, hattack, Option.none_bind, Option.map_none']
  rw [if_neg (by norm_num)]

/-- C2 (amended): whenever the derived attack+decay+release sample counts are
nonnegative and their sum fits in `n`, the envelope generator terminates
without error and returns exactly `n` values. -/
theorem C2_envelope_exact_length (n : ℤ) (attack decay sustain release : ℚ)
    (ha : 0 ≤ pyInt (attack * SAMPLE_RATE)) (hd : 0 ≤ pyInt (decay * SAMPLE_RATE))
    (hr : 0 ≤ pyInt (release * SAMPLE_RATE))
    (hsum : pyInt (attack * SAMPLE_RATE) + pyInt (decay * SAMPLE_RATE) +
      pyInt (release * SAMPLE_RATE) ≤ n) :
    (adsr_envelope n attack decay sustain release).map List.length = some n.toNat := by
  obtain ⟨env, he, hl⟩ := adsr_total n attack decay sustain release ha hd hr hsum
  rw [he, Option.map_some', hl]

theorem pyInt_att_default : pyInt ((1/100 : ℚ) * SAMPLE_RATE) = 441 :=
  pyInt_eq_of _ _ (by norm_num [SAMPLE_RATE]) (by norm_num [SAMPLE_RATE])
    (by norm_num [SAMPLE_RATE])

theorem pyInt_dec_default : pyInt ((8/100 : ℚ) * SAMPLE_RATE) = 3528 :=
  pyInt_eq_of _ _ (by norm_num [SAMPLE_RATE]) (by norm_num [SAMPLE_RATE])
    (by norm_num [SAMPLE_RATE])

theorem pyInt_rel_default : pyInt ((15/100 : ℚ) * SAMPLE_RATE) = 6615 :=
  pyInt_eq_of _ _ (by norm_num [SAMPLE_RATE]) (by norm_num [SAMPLE_RATE])
    (by norm_num [SAMPLE_RATE])

/-- Witness for the amended C2 at `n = 20000` with the default parameters
(`a = 441`, `d = 3528`, `r = 6615`, summing to `10584 ≤ 20000`). -/
theorem C2_envelope_exact_length_witness :
    (0 ≤ pyInt ((1/100 : ℚ) * SAMPLE_RATE) ∧ 0 ≤ pyInt ((8/100 : ℚ) * SAMPLE_RATE) ∧
      0 ≤ pyInt ((15/100 : ℚ) * SAMPLE_RATE) ∧
      pyInt ((1/100 : ℚ) * SAMPLE_RATE) + pyInt ((8/100 : ℚ) * SAMPLE_RATE) +
        pyInt ((15/100 : ℚ) * SAMPLE_RATE) ≤ 20000) ∧
    (adsr_envelope 20000 (1/100) (8/100) (6/10) (15/100)).map List.length =
      some ((20000 : ℤ).toNat) :=
  ⟨⟨by rw [pyInt_att_default]; norm_num, by rw [pyInt_dec_default]; norm_num,
      by rw [pyInt_rel_default]; norm_num,
      by rw [pyInt_att_default, pyInt_dec_default, pyInt_rel_default]; norm_num⟩,
    C2_envelope_exact_length 20000 (1/100) (8/100) (6/10) (15/100)
      (by rw [pyInt_att_default]; norm_num) (by rw [pyInt_dec_default]; norm_num)
      (by rw [pyInt_rel_default]; norm_num)
      (by rw [pyInt_att_default, pyInt_dec_default, pyInt_rel_default]; norm_num)⟩

theorem pyInt_nonneg (x : ℚ) (h : 0 ≤ x) : 0 ≤ pyInt x := by
  unfold pyInt
  rw [if_pos h]
  exact Int.floor_nonneg.mpr h

theorem applyEnv_length (w : ℕ → ℝ) (nn : ℕ) (env : List ℚ) :
    (applyEnv w nn env).length = min nn env.length := by
  unfold applyEnv
  rw [List.length_zipWith, List.length_range]

theorem postprocess_length (vol : ℚ) (sig : List ℝ) :
    (postprocess vol sig).length = sig.length := by
  simp only [postprocess, List.length_map]

theorem branch_length (n : ℤ) (A D S R : ℚ) (w : ℕ → ℝ) (vol : ℚ)
    (ha : 0 ≤ pyInt (A * SAMPLE_RATE)) (hd : 0 ≤ pyInt (D * SAMPLE_RATE))
    (hr : 0 ≤ pyInt (R * SAMPLE_RATE))
    (hsum : pyInt (A * SAMPLE_RATE) + pyInt (D * SAMPLE_RATE) +
      pyInt (R * SAMPLE_RATE) ≤ n) :
    (((adsr_envelope n A D S R).map (applyEnv w n.toNat)).map
      (postprocess vol)).map List.length = some n.toNat := by
  obtain ⟨env, he, hl⟩ := adsr_total n A D S R ha hd hr hsum
  rw [he, Option.map_some', Option.map_some', Option.map_some',
    postprocess_length, applyEnv_length, hl, Nat.min_self]

theorem synth_sig_sine (freq : ℝ) (dur : ℚ) (nz : ℕ → ℝ) :
    synth_sig freq dur "Sine" nz =
      (adsr_envelope (pyInt (dur * SAMPLE_RATE)) 0.01 0.06 0.75 0.18).map
        (applyEnv (fun i => wave_sine (2 * Real.pi * freq * ((i : ℝ) / 44100)))
          (pyInt (dur * SAMPLE_RATE)).toNat) := rfl

theorem synth_sig_square (freq : ℝ) (dur : ℚ) (nz : ℕ → ℝ) :
    synth_sig freq dur "Square" nz =
      (adsr_envelope (pyInt (dur * SAMPLE_RATE)) 0.005 0.05 0.55 0.12).map
        (applyEnv (fun i => wave_square (2 * Real.pi * freq * ((i : ℝ) / 44100)))
          (pyInt (dur * SAMPLE_RATE)).toNat) := rfl

theorem synth_sig_triangle (freq : ℝ) (dur : ℚ) (nz : ℕ → ℝ) :
    synth_sig freq dur "Triangle" nz =
      (adsr_envelope (pyInt (dur * SAMPLE_RATE)) 0.01 0.08 0.65 0.15).map
        (applyEnv (fun i => wave_triangle (2 * Real.pi * freq * ((i : ℝ) / 44100)))
          (pyInt (dur * SAMPLE_RATE)).toNat) := rfl

theorem synth_sig_saw (freq : ℝ) (dur : ℚ) (nz : ℕ → ℝ) :
    synth_sig freq dur "Saw" nz =
      (adsr_envelope (pyInt (dur * SAMPLE_RATE)) 0.01 0.10 0.5 0.18).map
        (applyEnv (fun i => wave_saw (2 * Real.pi * freq * ((i : ℝ) / 44100)))
          (pyInt (dur * SAMPLE_RATE)).toNat) := rfl

theorem synth_sig_organ (freq : ℝ) (dur : ℚ) (nz : ℕ → ℝ) :
    synth_sig freq dur "Organ" nz =
      (adsr_envelope (pyInt (dur * SAMPLE_RATE)) 0.02 0.06 0.95 0.22).map
        (applyEnv (fun i => 0.70 * wave_sine (2 * Real.pi * freq * ((i : ℝ) / 44100)) +
          0.20 * wave_sine (2 * (2 * Real.pi * freq * ((i : ℝ) / 44100))) +
          0.10 * wave_sine (3 * (2 * Real.pi * freq * ((i : ℝ) / 44100))))
          (pyInt (dur * SAMPLE_RATE)).toNat) := rfl

theorem synth_sig_bell (freq : ℝ) (dur : ℚ) (nz : ℕ → ℝ) :
    synth_sig freq dur "Bell" nz =
      (adsr_envelope (pyInt (dur * SAMPLE_RATE)) 0.002 0.20 0.12 0.35).map
        (applyEnv (fun i => 0.70 * wave_sine (2 * Real.pi * freq * ((i : ℝ) / 44100)) +
          0.35 * wave_sine (2.71 * (2 * Real.pi * freq * ((i : ℝ) / 44100))) +
          0.20 * wave_sine (5.18 * (2 * Real.pi * freq * ((i : ℝ) / 44100))))
          (pyInt (dur * SAMPLE_RATE)).toNat) := rfl

theorem synth_sig_piano (freq : ℝ) (dur : ℚ) (nz : ℕ → ℝ) :
    synth_sig freq dur "Piano-ish" nz =
      (adsr_envelope (pyInt (dur * SAMPLE_RATE)) 0.003 0.22 0.15 0.35).map
        (fun env =>
          (applyEnv (fun i => 0.55 * wave_sine (2 * Real.pi * freq * ((i : ℝ) / 44100)) +
            0.28 * wave_sine (2 * (2 * Real.pi * freq * ((i : ℝ) / 44100))) +
            0.12 * wave_sine (3 * (2 * Real.pi * freq * ((i : ℝ) / 44100))) +
            0.05 * wave_sine (4 * (2 * Real.pi * freq * ((i : ℝ) / 44100))))
            (pyInt (dur * SAMPLE_RATE)).toNat env).mapIdx fun i x =>
              if i < min (pyInt ((0.008 : ℚ) * SAMPLE_RATE)).toNat
                  (pyInt (dur * SAMPLE_RATE)).toNat then
                x + nz i * (((linspace_withend 1 0
                  (min (pyInt ((0.008 : ℚ) * SAMPLE_RATE)).toNat
                    (pyInt (dur * SAMPLE_RATE)).toNat)).getD i 0 : ℚ) : ℝ)
              else x) := rfl

theorem synth_sig_chiptune (freq : ℝ) (dur : ℚ) (nz : ℕ → ℝ) :
    synth_sig freq dur "Chiptune" nz =
      (adsr_envelope (pyInt (dur * SAMPLE_RATE)) 0.002 0.04 0.6 0.08).map
        (applyEnv (fun i => np_sign (Real.sin (2 * Real.pi * freq *
          (1 + 0.003 * Real.sin (2 * Real.pi * 6.0 * ((i : ℝ) / 44100))) *
          ((i : ℝ) / 44100)))) (pyInt (dur * SAMPLE_RATE)).toNat) := rfl

theorem synth_sig_unknown (freq : ℝ) (dur : ℚ) (inst : String) (nz : ℕ → ℝ)
    (h1 : inst ≠ "Sine") (h2 : inst ≠ "Square") (h3 : inst ≠ "Triangle")
    (h4 : inst ≠ "Saw") (h5 : inst ≠ "Organ") (h6 : inst ≠ "Bell")
    (h7 : inst ≠ "Piano-ish") (h8 : inst ≠ "Chiptune") :
    synth_sig freq dur inst nz =
      (adsr_envelope (pyInt (dur * SAMPLE_RATE)) 0.01 0.08 0.6 0.15).map
        (applyEnv (fun i => wave_sine (2 * Real.pi * freq * ((i : ℝ) / 44100)))
          (pyInt (dur * SAMPLE_RATE)).toNat) := by
  simp only [synth_sig]
  rw [if_neg h1, if_neg h2, if_neg h3, if_neg h4, if_neg h5, if_neg h6,
    if_neg h7, if_neg h8]

/-- Sample-frame count of `synth_note`: whenever the instrument envelope's
segment counts fit in `int(duration * SAMPLE_RATE)`, rendering succeeds and
the frame count equals that truncated product. -/
theorem synth_note_length (freq : ℝ) (dur : ℚ) (inst : String) (vol : ℚ)
    (nz : ℕ → ℝ) (h : minSamples inst ≤ pyInt (dur * SAMPLE_RATE)) :
    (synth_note freq dur inst vol nz).map List.length =
      some (pyInt (dur * SAMPLE_RATE)).toNat := by
  have hnn : ∀ q : ℚ, 0 ≤ q → 0 ≤ pyInt (q * SAMPLE_RATE) := fun q hq =>
    pyInt_nonneg _ (by unfold SAMPLE_RATE; positivity)
  unfold synth_note
  by_cases e1 : inst = "Sine"
  · subst e1; rw [synth_sig_sine]
    exact branch_length _ _ _ _ _ _ vol (hnn _ (by norm_num)) (hnn _ (by norm_num))
      (hnn _ (by norm_num)) h
  · by_cases e2 : inst = "Square"
    · subst e2; rw [synth_sig_square]
      exact branch_length _ _ _ _ _ _ vol (hnn _ (by norm_num)) (hnn _ (by norm_num))
        (hnn _ (by norm_num)) h
    · by_cases e3 : inst = "Triangle"
      · subst e3; rw [synth_sig_triangle]
        exact branch_length _ _ _ _ _ _ vol (hnn _ (by norm_num)) (hnn _ (by norm_num))
          (hnn _ (by norm_num)) h
      · by_cases e4 : inst = "Saw"
        · subst e4; rw [synth_sig_saw]
          exact branch_length _ _ _ _ _ _ vol (hnn _ (by norm_num)) (hnn _ (by norm_num))
            (hnn _ (by norm_num)) h
        · by_cases e5 : inst = "Organ"
          · subst e5; rw [synth_sig_organ]
            exact branch_length _ _ _ _ _ _ vol (hnn _ (by norm_num)) (hnn _ (by norm_num))
              (hnn _ (by norm_num)) h
          · by_cases e6 : inst = "Bell"
            · subst e6; rw [synth_sig_bell]
              exact branch_length _ _ _ _ _ _ vol (hnn _ (by norm_num))
                (hnn _ (by norm_num)) (hnn _ (by norm_num)) h
            · by_cases e7 : inst = "Piano-ish"
              · subst e7; rw [synth_sig_piano]
                obtain ⟨env, he, hl⟩ := adsr_total (pyInt (dur * SAMPLE_RATE))
                  0.003 0.22 0.15 0.35 (hnn _ (by norm_num)) (hnn _ (by norm_num))
                  (hnn _ (by norm_num)) h
                rw [he, Option.map_some', Option.map_some', Option.map_some']
                simp only [postprocess_length, List.length_mapIdx, applyEnv_length,
                  hl, Nat.min_self]
              · by_cases e8 : inst = "Chiptune"
                · subst e8; rw [synth_sig_chiptune]
                  exact branch_length _ _ _ _ _ _ vol (hnn _ (by norm_num))
                    (hnn _ (by norm_num)) (hnn _ (by norm_num)) h
                · rw [synth_sig_unknown freq dur inst nz e1 e2 e3 e4 e5 e6 e7 e8]
                  refine branch_length _ _ _ _ _ _ vol (hnn _ (by norm_num))
                    (hnn _ (by norm_num)) (hnn _ (by norm_num)) ?_
                  have hm : minSamples inst = pyInt ((0.01 : ℚ) * SAMPLE_RATE) +
                      pyInt ((0.08 : ℚ) * SAMPLE_RATE) +
                      pyInt ((0.15 : ℚ) * SAMPLE_RATE) := by
                    unfold minSamples envParams
                    rw [if_neg e1, if_neg e2, if_neg e3, if_neg e4, if_neg e5,
                      if_neg e6, if_neg e7, if_neg e8]
                  rw [hm] at h
                  exact h

/-- C3 (amended): the sample-frame count is `int(duration * 44100)` —
truncation toward zero, not `round` — and the buffer exists exactly when that
count is at least the instrument envelope's attack+decay+release total. -/
theorem C3_render_length (freq : ℝ) (dur : ℚ) (inst : String) (vol : ℚ)
    (nz : ℕ → ℝ) (h : minSamples inst ≤ pyInt (dur * SAMPLE_RATE)) :
    (synth_note freq dur inst vol nz).map List.length =
      some (pyInt (dur * SAMPLE_RATE)).toNat :=
  synth_note_length freq dur inst vol nz h

theorem pyInt_dur6 : pyInt ((6 : ℚ) * SAMPLE_RATE) = 264600 :=
  pyInt_eq_of _ _ (by norm_num [SAMPLE_RATE]) (by norm_num [SAMPLE_RATE])
    (by norm_num [SAMPLE_RATE])

theorem minSamples_sine_eval : minSamples "Sine" = 11025 := by
  have h1 : pyInt ((0.01 : ℚ) * SAMPLE_RATE) = 441 :=
    pyInt_eq_of _ _ (by norm_num [SAMPLE_RATE]) (by norm_num [SAMPLE_RATE])
      (by norm_num [SAMPLE_RATE])
  have h2 : pyInt ((0.06 : ℚ) * SAMPLE_RATE) = 2646 :=
    pyInt_eq_of _ _ (by norm_num [SAMPLE_RATE]) (by norm_num [SAMPLE_RATE])
      (by norm_num [SAMPLE_RATE])
  have h3 : pyInt ((0.18 : ℚ) * SAMPLE_RATE) = 7938 :=
    pyInt_eq_of _ _ (by norm_num [SAMPLE_RATE]) (by norm_num [SAMPLE_RATE])
      (by norm_num [SAMPLE_RATE])
  have hm : minSamples "Sine" = pyInt ((0.01 : ℚ) * SAMPLE_RATE) +
      pyInt ((0.06 : ℚ) * SAMPLE_RATE) + pyInt ((0.18 : ℚ) * SAMPLE_RATE) := rfl
  rw [hm, h1, h2, h3]
  norm_num

/-- Witness for the amended C3: a 6-second "Sine" note has exactly
`int(6 * 44100) = 264600` frames. -/
theorem C3_render_length_witness :
    minSamples "Sine" ≤ pyInt ((6 : ℚ) * SAMPLE_RATE) ∧
    (synth_note 440 6 "Sine" (45/100) (fun _ => 0)).map List.length =
      some ((pyInt ((6 : ℚ) * SAMPLE_RATE)).toNat) ∧
    (pyInt ((6 : ℚ) * SAMPLE_RATE)).toNat = 264600 :=
  ⟨by rw [minSamples_sine_eval, pyInt_dur6]; norm_num,
    C3_render_length 440 6 "Sine" (45/100) (fun _ => 0)
      (by rw [minSamples_sine_eval, pyInt_dur6]; norm_num),
    by rw [pyInt_dur6]; rfl⟩

/-- C3 (counterexample): at `duration = 220507/441000` seconds the product
with the sample rate is `22050.7`; the code truncates to `22050` frames while
the claim's `round` gives `22051`. -/
theorem C3_counterexample :
    (synth_note 440 (220507/441000) "Sine" (45/100) (fun _ => 0)).map List.length =
      some 22050 ∧
    (22050 : ℤ) ≠ pyRound ((220507/441000 : ℚ) * SAMPLE_RATE) := by
  have hn : pyInt ((220507/441000 : ℚ) * SAMPLE_RATE) = 22050 :=
    pyInt_eq_of _ _ (by norm_num [SAMPLE_RATE]) (by norm_num [SAMPLE_RATE])
      (by norm_num [SAMPLE_RATE])
  constructor
  · have h := synth_note_length 440 (220507/441000) "Sine" (45/100) (fun _ => 0)
      (by rw [minSamples_sine_eval, hn]; norm_num)
    rw [hn] at h
    simpa using h
  · have hfl : (⌊(220507/441000 : ℚ) * SAMPLE_RATE⌋ : ℤ) = 22050 :=
      Int.floor_eq_iff.mpr (by norm_num [SAMPLE_RATE])
    have hro : pyRound ((220507/441000 : ℚ) * SAMPLE_RATE) = 22051 := by
      unfold pyRound
      rw [hfl, if_neg (by norm_num [SAMPLE_RATE]), round_eq]
      exact Int.floor_eq_iff.mpr (by norm_num [SAMPLE_RATE])
    rw [hro]
    norm_num

/-- C7 (amended): any unrecognized instrument name falls back to the default
pure-sine recipe — identical to the `else` branch for every unknown name, with
the same clip/scale/quantize/stereo steps — and rendering succeeds whenever the
frame count admits the default envelope (at least 10584 samples); for shorter
notes the envelope itself fails, for known names as well. -/
theorem C7_unknown_instrument (freq : ℝ) (dur : ℚ) (vol : ℚ) (nz : ℕ → ℝ)
    (inst : String)
    (h : inst ∉ (["Sine", "Square", "Triangle", "Saw", "Organ", "Bell",
      "Piano-ish", "Chiptune"] : List String)) :
    synth_note freq dur inst vol nz = default_recipe freq dur vol ∧
    (10584 ≤ pyInt (dur * SAMPLE_RATE) →
      ∃ buf, synth_note freq dur inst vol nz = some buf) := by
  simp only [List.mem_cons, List.mem_singleton, not_or] at h
  obtain ⟨h1, h2, h3, h4, h5, h6, h7, h8, -⟩ := h
  have hmain : synth_note freq dur inst vol nz = default_recipe freq dur vol := by
    unfold synth_note default_recipe
    rw [synth_sig_unknown freq dur inst nz h1 h2 h3 h4 h5 h6 h7 h8]
  refine ⟨hmain, fun hd => ?_⟩
  have h441 : pyInt ((0.01 : ℚ) * SAMPLE_RATE) = 441 :=
    pyInt_eq_of _ _ (by norm_num [SAMPLE_RATE]) (by norm_num [SAMPLE_RATE])
      (by norm_num [SAMPLE_RATE])
  have h3528 : pyInt ((0.08 : ℚ) * SAMPLE_RATE) = 3528 :=
    pyInt_eq_of _ _ (by norm_num [SAMPLE_RATE]) (by norm_num [SAMPLE_RATE])
      (by norm_num [SAMPLE_RATE])
  have h6615 : pyInt ((0.15 : ℚ) * SAMPLE_RATE) = 6615 :=
    pyInt_eq_of _ _ (by norm_num [SAMPLE_RATE]) (by norm_num [SAMPLE_RATE])
      (by norm_num [SAMPLE_RATE])
  obtain ⟨env, he, hl⟩ := adsr_total (pyInt (dur * SAMPLE_RATE)) 0.01 0.08 0.6 0.15
    (by rw [h441]; norm_num) (by rw [h3528]; norm_num) (by rw [h6615]; norm_num)
    (by rw [h441, h3528, h6615]; omega)
  rw [hmain]
  unfold default_recipe
  rw [he, Option.map_some', Option.map_some']
  exact ⟨_, rfl⟩

/-- Witness for the amended C7 with the unrecognized name "Xylophone". -/
theorem C7_unknown_instrument_witness :
    ("Xylophone" : String) ∉ (["Sine", "Square", "Triangle", "Saw", "Organ",
      "Bell", "Piano-ish", "Chiptune"] : List String) ∧
    (synth_note 440 6 "Xylophone" (45/100) (fun _ => 0) =
      default_recipe 440 6 (45/100) ∧
    (10584 ≤ pyInt ((6 : ℚ) * SAMPLE_RATE) →
      ∃ buf, synth_note 440 6 "Xylophone" (45/100) (fun _ => 0) = some buf)) :=
  ⟨by decide, C7_unknown_instrument 440 6 (45/100) (fun _ => 0) "Xylophone" (by decide)⟩

set_option maxRecDepth 4000 in
/-- C7 (counterexample): with the unrecognized name "Xylophone" and a
0.01-second note (441 frames), `synth_note` raises inside `adsr_envelope`
(the 3528-sample decay segment cannot be broadcast into the remaining 0
slots), so `render` is not error-free for unknown names. -/
theorem C7_counterexample :
    synth_note 440 (1/100) "Xylophone" (45/100) (fun _ => 0) = none := by
  have hn : pyInt ((1/100 : ℚ) * SAMPLE_RATE) = 441 := pyInt_att_default
  have h441 : pyInt ((0.01 : ℚ) * SAMPLE_RATE) = 441 :=
    pyInt_eq_of _ _ (by norm_num [SAMPLE_RATE]) (by norm_num [SAMPLE_RATE])
      (by norm_num [SAMPLE_RATE])
  have h3528 : pyInt ((0.08 : ℚ) * SAMPLE_RATE) = 3528 :=
    pyInt_eq_of _ _ (by norm_num [SAMPLE_RATE]) (by norm_num [SAMPLE_RATE])
      (by norm_num [SAMPLE_RATE])
  have hadsr : adsr_envelope 441 0.01 0.08 0.6 0.15 = none := by
    obtain ⟨e1, hat, l1⟩ := adsrAttack_spec 441 (List.replicate (441 : ℤ).toNat 0)
      (by norm_num) (by simp)
    have hdec : adsrDecay 3528 (0.6 : ℚ) (e1, (441 : ℤ).toNat) = none := by
      unfold adsrDecay
      rw [if_pos (by norm_num), sliceAssignArr_none, Option.map_none']
      · simp only [length_linspace_noend, l1, List.length_replicate,
          Int.toNat_ofNat]
        omega
      · simp only [length_linspace_noend, Int.toNat_ofNat]
        omega
    simp only [adsr_envelope, h441, h3528]
    rw [if_neg (by norm_num), hat, Option.some_bind, hdec, Option.map_none',
      Option.none_bind, Option.map_none']
  unfold synth_note
  rw [synth_sig_unknown 440 (1/100) "Xylophone" (fun _ => 0) (by decide) (by decide)
    (by decide) (by decide) (by decide) (by decide) (by decide) (by decide),
    hn, hadsr]
  rfl

/-- C4: for every instrument except the percussive "Piano-ish", `synth_note`
never reads the random-noise oracle, so two renders with identical frequency,
duration, instrument and volume but different noise draws produce identical
buffers: the synthesizer is deterministic in its inputs. -/
theorem C4_determinism (freq : ℝ) (dur : ℚ) (inst : String) (vol : ℚ)
    (h : inst ≠ "Piano-ish") (nz1 nz2 : ℕ → ℝ) :
    synth_note freq dur inst vol nz1 = synth_note freq dur inst vol nz2 := by
  unfold synth_note
  congr 1
  by_cases e1 : inst = "Sine"
  · subst e1; rfl
  · by_cases e2 : inst = "Square"
    · subst e2; rfl
    · by_cases e3 : inst = "Triangle"
      · subst e3; rfl
      · by_cases e4 : inst = "Saw"
        · subst e4; rfl
        · by_cases e5 : inst = "Organ"
          · subst e5; rfl
          · by_cases e6 : inst = "Bell"
            · subst e6; rfl
            · by_cases e8 : inst = "Chiptune"
              · subst e8; rfl
              · rw [synth_sig_unknown freq dur inst nz1 e1 e2 e3 e4 e5 e6 h e8,
                  synth_sig_unknown freq dur inst nz2 e1 e2 e3 e4 e5 e6 h e8]

/-- Witness for C4 with "Sine" at two different noise oracles. -/
theorem C4_determinism_witness :
    ("Sine" : String) ≠ "Piano-ish" ∧
    synth_note 440 6 "Sine" (45/100) (fun _ => 0) =
      synth_note 440 6 "Sine" (45/100) (fun _ => 1) :=
  ⟨by decide, C4_determinism 440 6 "Sine" (45/100) (by decide) (fun _ => 0) (fun _ => 1)⟩

theorem pyTrunc_bounds (z : ℝ) (h1 : -32767 ≤ z) (h2 : z ≤ 32767) :
    -32767 ≤ pyTrunc z ∧ pyTrunc z ≤ 32767 := by
  unfold pyTrunc
  split
  · next h0 =>
    have hf0 : (0 : ℤ) ≤ ⌊z⌋ := Int.floor_nonneg.mpr h0
    have hf1 : ⌊z⌋ < 32768 := Int.floor_lt.mpr (by push_cast; linarith)
    omega
  · next h0 =>
    have hz : z < 0 := lt_of_not_le h0
    have hc0 : ⌈z⌉ ≤ 0 := Int.ceil_le.mpr (by push_cast; linarith)
    have hc1 : -32768 < ⌈z⌉ := Int.lt_ceil.mpr (by push_cast; linarith)
    omega

theorem toInt16_eq (m : ℤ) (h1 : -32768 ≤ m) (h2 : m ≤ 32767) : toInt16 m = m := by
  unfold toInt16
  rw [Int.emod_eq_of_lt (by omega) (by omega)]
  omega

/-- C6: `synth_note` clips the summed signal to [-1, 1], scales by the volume,
quantizes by multiplying by 32767 and truncating to int16, and duplicates the
mono channel (that pipeline is `postprocess`, mirroring lines 131-136);
consequently, for volumes in [0.05, 1], every sample of the returned buffer
lies within [-32767, 32767] and the left channel equals the right channel. -/
theorem C6_quantization_bounds (freq : ℝ) (dur : ℚ) (inst : String) (vol : ℚ)
    (nz : ℕ → ℝ) (hv1 : (0.05 : ℚ) ≤ vol) (hv2 : vol ≤ 1) :
    ∀ buf ∈ synth_note freq dur inst vol nz, ∀ pr ∈ buf,
      pr.1 = pr.2 ∧ -32767 ≤ pr.1 ∧ pr.1 ≤ 32767 := by
  intro buf hbuf pr hpr
  rw [Option.mem_def] at hbuf
  unfold synth_note at hbuf
  rw [Option.map_eq_some'] at hbuf
  obtain ⟨sig, hsig, hpost⟩ := hbuf
  subst hpost
  simp only [postprocess, List.map_map, List.mem_map, Function.comp] at hpr
  obtain ⟨x, hx, rfl⟩ := hpr
  have hv0 : (0 : ℝ) ≤ (vol : ℝ) := by
    have h05 : (0 : ℚ) ≤ vol := le_trans (by norm_num) hv1
    exact_mod_cast h05
  have hvr : (vol : ℝ) ≤ 1 := by exact_mod_cast hv2
  have hclip1 : min 1 (max (-1) x) ≤ 1 := min_le_left _ _
  have hclip2 : (-1 : ℝ) ≤ min 1 (max (-1) x) := le_min (by norm_num) (le_max_left _ _)
  have k1 : min 1 (max (-1) x) * (vol : ℝ) ≤ 1 := by
    have := mul_le_mul_of_nonneg_right hclip1 hv0
    rw [one_mul] at this
    linarith
  have k2 : (-1 : ℝ) ≤ min 1 (max (-1) x) * (vol : ℝ) := by
    have := mul_le_mul_of_nonneg_right hclip2 hv0
    rw [neg_one_mul] at this
    linarith
  have hz1 : (min 1 (max (-1) x) * (vol : ℝ)) * 32767 ≤ 32767 := by nlinarith
  have hz2 : (-32767 : ℝ) ≤ (min 1 (max (-1) x) * (vol : ℝ)) * 32767 := by nlinarith
  obtain ⟨hb1, hb2⟩ := pyTrunc_bounds _ hz2 hz1
  refine ⟨rfl, ?_, ?_⟩
  · show -32767 ≤ toInt16 (pyTrunc (min 1 (max (-1) x) * (vol : ℝ) * 32767))
    rw [toInt16_eq _ (by omega) (by omega)]
    exact hb1
  · show toInt16 (pyTrunc (min 1 (max (-1) x) * (vol : ℝ) * 32767)) ≤ 32767
    rw [toInt16_eq _ (by omega) (by omega)]
    exact hb2

/-- Witness for C6 with a 6-second "Sine" note at volume 0.45. -/
theorem C6_quantization_bounds_witness :
    ((0.05 : ℚ) ≤ 45/100 ∧ (45/100 : ℚ) ≤ 1) ∧
    (∀ buf ∈ synth_note 440 6 "Sine" (45/100) (fun _ => 0), ∀ pr ∈ buf,
      pr.1 = pr.2 ∧ -32767 ≤ pr.1 ∧ pr.1 ≤ 32767) :=
  ⟨⟨by norm_num, by norm_num⟩,
    C6_quantization_bounds 440 6 "Sine" (45/100) (fun _ => 0)
      (by norm_num) (by norm_num)⟩

/-- C1: for semitone offsets in 0..12 and octave shifts in -2..2,
`semitone_to_freq` equals `261.625565 * 2^(k/12)` with
`k = semitoneOffset + 12*octaveShift`, is strictly positive, is strictly
increasing in `k`, and satisfies `frequency(0,0) = 261.625565` and
`frequency(12,0) = frequency(0,1)`. -/
theorem C1_pitch_mapper (s o : ℤ) (hs0 : 0 ≤ s) (hs1 : s ≤ 12)
    (ho0 : -2 ≤ o) (ho1 : o ≤ 2) :
    semitone_to_freq s o = 261.625565 * (2 : ℝ) ^ (((s + 12 * o : ℤ) : ℝ) / 12) ∧
    0 < semitone_to_freq s o ∧
    (∀ s' o' : ℤ, 0 ≤ s' → s' ≤ 12 → -2 ≤ o' → o' ≤ 2 →
      s + 12 * o < s' + 12 * o' → semitone_to_freq s o < semitone_to_freq s' o') ∧
    semitone_to_freq 0 0 = 261.625565 ∧
    semitone_to_freq 12 0 = semitone_to_freq 0 1 := by
  have hb : (0 : ℝ) < 261.625565 := by norm_num
  refine ⟨?_, ?_, ?_, ?_, ?_⟩
  · unfold semitone_to_freq C4_FREQ
    norm_num [mul_comm]
  · unfold semitone_to_freq C4_FREQ
    exact mul_pos hb (Real.rpow_pos_of_pos (by norm_num) _)
  · intro s' o' _ _ _ _ hk
    unfold semitone_to_freq C4_FREQ
    have harg : ((s + o * 12 : ℤ) : ℝ) / 12 < ((s' + o' * 12 : ℤ) : ℝ) / 12 := by
      have : ((s + o * 12 : ℤ) : ℝ) < ((s' + o' * 12 : ℤ) : ℝ) := by
        exact_mod_cast (by omega : s + o * 12 < s' + o' * 12)
      linarith
    exact mul_lt_mul_of_pos_left
      ((Real.rpow_lt_rpow_left_iff (by norm_num : (1:ℝ) < 2)).mpr harg) hb
  · unfold semitone_to_freq C4_FREQ
    norm_num
  · unfold semitone_to_freq C4_FREQ
    norm_num

/-- Witness for C1 at `(s, o) = (0, 0)` and `(s', o') = (1, 0)`. -/
theorem C1_pitch_mapper_witness :
    ((0 : ℤ) ≤ 0 ∧ (0 : ℤ) ≤ 12 ∧ (-2 : ℤ) ≤ 0 ∧ (0 : ℤ) ≤ 2) ∧
    (semitone_to_freq 0 0 = 261.625565 * (2 : ℝ) ^ (((0 + 12 * 0 : ℤ) : ℝ) / 12) ∧
      0 < semitone_to_freq 0 0 ∧
      (∀ s' o' : ℤ, 0 ≤ s' → s' ≤ 12 → -2 ≤ o' → o' ≤ 2 →
        0 + 12 * 0 < s' + 12 * o' → semitone_to_freq 0 0 < semitone_to_freq s' o') ∧
      semitone_to_freq 0 0 = 261.625565 ∧
      semitone_to_freq 12 0 = semitone_to_freq 0 1) :=
  ⟨⟨le_refl 0, by norm_num, by norm_num, by norm_num⟩,
    C1_pitch_mapper 0 0 (by norm_num) (by norm_num) (by norm_num) (by norm_num)⟩

/-- C8: the sawtooth equals `2*(phase/(2π) - floor(0.5 + phase/(2π)))` and
lies in `[-1, 1)`; the triangle equals `2*|saw| - 1` and lies in `[-1, 1]`;
the sine lies in `[-1, 1]`; the square only takes values in `{-1, 0, 1}`. -/
theorem C8_waveform_ranges (p : ℝ) :
    wave_saw p = 2 * (p / (2 * Real.pi) - ⌊0.5 + p / (2 * Real.pi)⌋) ∧
    (-1 ≤ wave_saw p ∧ wave_saw p < 1) ∧
    wave_triangle p = 2 * |wave_saw p| - 1 ∧
    (-1 ≤ wave_triangle p ∧ wave_triangle p ≤ 1) ∧
    (-1 ≤ wave_sine p ∧ wave_sine p ≤ 1) ∧
    (wave_square p = -1 ∨ wave_square p = 0 ∨ wave_square p = 1) := by
  have hsaw : -1 ≤ wave_saw p ∧ wave_saw p < 1 := by
    unfold wave_saw
    set x : ℝ := p / (2 * Real.pi) with hx
    have h1 : (⌊0.5 + x⌋ : ℝ) ≤ 0.5 + x := Int.floor_le _
    have h2 : 0.5 + x < (⌊0.5 + x⌋ : ℝ) + 1 := Int.lt_floor_add_one _
    constructor <;> nlinarith
  refine ⟨rfl, hsaw, rfl, ?_, ⟨Real.neg_one_le_sin p, Real.sin_le_one p⟩, ?_⟩
  · unfold wave_triangle
    have habs : |wave_saw p| ≤ 1 := abs_le.mpr ⟨hsaw.1, le_of_lt hsaw.2⟩
    have habs0 : 0 ≤ |wave_saw p| := abs_nonneg _
    constructor <;> nlinarith
  · unfold wave_square np_sign
    rcases lt_trichotomy 0 (Real.sin p) with h | h | h
    · right; right; rw [if_pos h]
    · right; left; rw [if_neg (by linarith), if_neg (by linarith)]
    · left; rw [if_neg (by linarith), if_pos h]

/-- C5: a `get_sound` call whose key is in the cache returns the stored buffer
with the cache unchanged and without invoking the synthesizer; a call on a
missing key invokes it exactly once, stores the result under the key, and
returns it; and on a cleared (empty) cache every successful call recomputes
(the invocation flag is `true`, never a stale buffer). -/
theorem C5_render_cache (cache : Cache) (inst : String) (octv semi : ℤ)
    (vol dur : ℚ) (nz : ℕ → ℝ) :
    (∀ b, cacheLookup cache (inst, octv, semi, round3 vol) = some b →
      get_sound cache inst octv semi vol dur nz = some (b, cache, false)) ∧
    (cacheLookup cache (inst, octv, semi, round3 vol) = none →
      get_sound cache inst octv semi vol dur nz =
        (synth_note (semitone_to_freq semi octv) dur inst vol nz).map
          (fun audio =>
            (audio, ((inst, octv, semi, round3 vol), audio) :: cache, true)) ∧
      ∀ audio : List (ℤ × ℤ),
        cacheLookup (((inst, octv, semi, round3 vol), audio) :: cache)
          (inst, octv, semi, round3 vol) = some audio) ∧
    (∀ out, get_sound [] inst octv semi vol dur nz = some out →
      out.2.2 = true) := by
  refine ⟨?_, ?_, ?_⟩
  · intro b hb
    simp only [get_sound]
    rw [hb]
  · intro hb
    constructor
    · simp only [get_sound]
      rw [hb]
    · intro audio
      unfold cacheLookup
      rw [if_pos rfl]
  · intro out hout
    simp only [get_sound, cacheLookup] at hout
    rw [Option.map_eq_some'] at hout
    obtain ⟨audio, -, hout'⟩ := hout
    rw [← hout']

/-- Witness for C5: a hit on a one-entry cache (the stored buffer is the empty
list) returns it unchanged without invoking the synthesizer, and on the empty
cache every successful call carries invocation flag `true`. -/
theorem C5_render_cache_witness :
    cacheLookup [(("Sine", 0, 0, round3 (45/100)), [])]
      ("Sine", 0, 0, round3 (45/100)) = some [] ∧
    get_sound [(("Sine", 0, 0, round3 (45/100)), [])] "Sine" 0 0 (45/100) 6
      (fun _ => 0) = some ([], [(("Sine", 0, 0, round3 (45/100)), [])], false) ∧
    (∀ out, get_sound [] "Sine" 0 0 (45/100) 6 (fun _ => 0) = some out →
      out.2.2 = true) := by
  have hl : cacheLookup [(("Sine", 0, 0, round3 (45/100)), [])]
      ("Sine", 0, 0, round3 (45/100)) = some [] := by
    unfold cacheLookup
    rw [if_pos rfl]
  exact ⟨hl,
    (C5_render_cache [(("Sine", 0, 0, round3 (45/100)), [])] "Sine" 0 0 (45/100) 6
      (fun _ => 0)).1 [] hl,
    (C5_render_cache [] "Sine" 0 0 (45/100) 6 (fun _ => 0)).2.2⟩

theorem pyRound_eval (x : ℚ) (z : ℤ) (h1 : (z : ℚ) ≤ x) (h2 : x < (z : ℚ) + 1/2) :
    pyRound x = z := by
  have hfl : (⌊x⌋ : ℤ) = z := Int.floor_eq_iff.mpr ⟨h1, by push_cast; linarith⟩
  unfold pyRound
  rw [hfl, if_neg (by intro hc; nlinarith [hc]), round_eq]
  exact Int.floor_eq_iff.mpr ⟨by push_cast; linarith, by push_cast; linarith⟩

theorem round3_v045 : round3 (45/100) = 9/20 := by
  unfold round3
  rw [pyRound_eval ((45/100 : ℚ) * 1000) 450 (by norm_num) (by norm_num)]
  norm_num

theorem round3_v04501 : round3 (4501/10000) = 9/20 := by
  unfold round3
  rw [pyRound_eval ((4501/10000 : ℚ) * 1000) 450 (by norm_num) (by norm_num)]
  norm_num

/-- C10: the cache key rounds the volume to 3 decimals but the audio is scaled
by the exact volume: starting from an empty cache, a first call with volume v1
renders with v1; a second call with v2 ≠ v1 but `round3 v2 = round3 v1` hits
the cache and returns the buffer rendered with v1, without invoking the
synthesizer on v2. -/
theorem C10_cache_volume_rounding (inst : String) (octv semi : ℤ)
    (v1 v2 dur : ℚ) (nz1 nz2 : ℕ → ℝ) (hne : v1 ≠ v2)
    (hr : round3 v1 = round3 v2) :
    ∀ out, get_sound [] inst octv semi v1 dur nz1 = some out →
      synth_note (semitone_to_freq semi octv) dur inst v1 nz1 = some out.1 ∧
      get_sound out.2.1 inst octv semi v2 dur nz2 =
        some (out.1, out.2.1, false) := by
  intro out hout
  simp only [get_sound, cacheLookup] at hout
  rw [Option.map_eq_some'] at hout
  obtain ⟨audio, haudio, hout'⟩ := hout
  subst hout'
  refine ⟨haudio, ?_⟩
  simp only [get_sound]
  rw [← hr]
  have hlook : cacheLookup [((inst, octv, semi, round3 v1), audio)]
      (inst, octv, semi, round3 v1) = some audio := by
    unfold cacheLookup
    rw [if_pos rfl]
  rw [hlook]

/-- Witness for C10 with `v1 = 0.45` and `v2 = 0.4501`, which both round to
`0.450`. -/
theorem C10_cache_volume_rounding_witness :
    (45/100 : ℚ) ≠ 4501/10000 ∧ round3 (45/100) = round3 (4501/10000) ∧
    (∀ out, get_sound [] "Sine" 0 0 (45/100) 6 (fun _ => 0) = some out →
      synth_note (semitone_to_freq 0 0) 6 "Sine" (45/100) (fun _ => 0) =
        some out.1 ∧
      get_sound out.2.1 "Sine" 0 0 (4501/10000) 6 (fun _ => 0) =
        some (out.1, out.2.1, false)) :=
  ⟨by norm_num, by rw [round3_v045, round3_v04501],
    C10_cache_volume_rounding "Sine" 0 0 (45/100) (4501/10000) 6
      (fun _ => 0) (fun _ => 0) (by norm_num)
      (by rw [round3_v045, round3_v04501])⟩

theorem hasKey_eq_true (l : List (ℕ × ℕ)) (k : ℕ) :
    hasKey l k = true ↔ ∃ p ∈ l, p.1 = k := by
  simp [hasKey, List.any_eq_true]

theorem hasKey_eq_false (l : List (ℕ × ℕ)) (k : ℕ) :
    hasKey l k = false ↔ ∀ p ∈ l, p.1 ≠ k := by
  simp [hasKey, List.any_eq_false]

theorem noteTrigger_none (nz : ℕ → ℕ → ℝ) (play : ℕ → Option ℕ) (key : ℕ)
    (e : ℕ × ℤ) : noteTrigger nz play key none e = none := rfl

theorem foldl_noteTrigger_none (nz : ℕ → ℕ → ℝ) (play : ℕ → Option ℕ) (key : ℕ)
    (l : List (ℕ × ℤ)) : l.foldl (noteTrigger nz play key) none = none := by
  induction l with
  | nil => rfl
  | cons e rest ih =>
    rw [List.foldl_cons, noteTrigger_none]
    exact ih

theorem noteTrigger_active (nz : ℕ → ℕ → ℝ) (play : ℕ → Option ℕ) (key : ℕ)
    (s : AppState) (e : ℕ × ℤ) (hact : hasKey s.active_channels key = true) :
    noteTrigger nz play key (some s) e = some s := by
  unfold noteTrigger
  rw [Option.some_bind, if_neg]
  rintro ⟨hk, hfalse⟩
  rw [← hk, hact] at hfalse
  exact absurd hfalse (by simp)

theorem foldl_noteTrigger_active (nz : ℕ → ℕ → ℝ) (play : ℕ → Option ℕ)
    (key : ℕ) (s : AppState) (hact : hasKey s.active_channels key = true)
    (l : List (ℕ × ℤ)) : l.foldl (noteTrigger nz play key) (some s) = some s := by
  induction l with
  | nil => rfl
  | cons e rest ih =>
    rw [List.foldl_cons, noteTrigger_active nz play key s e hact]
    exact ih

theorem noteTrigger_inv (nz : ℕ → ℕ → ℝ) (play : ℕ → Option ℕ) (key : ℕ)
    (s : AppState) (e : ℕ × ℤ) (he : e ∈ KEYBOARD_MAP) (hs : activeKeysOK s)
    (s' : AppState) (h : noteTrigger nz play key (some s) e = some s') :
    activeKeysOK s' := by
  unfold noteTrigger at h
  rw [Option.some_bind] at h
  by_cases hc : key = e.1 ∧ hasKey s.active_channels e.1 = false
  · rw [if_pos hc] at h
    rw [Option.map_eq_some'] at h
    obtain ⟨out, -, hs'⟩ := h
    have hnew : ∀ p ∈ s.active_channels, p.1 ≠ e.1 :=
      (hasKey_eq_false _ _).mp hc.2
    cases hp : play s.next_channel with
    | some ch =>
      rw [hp] at hs'
      subst hs'
      constructor
      · rw [List.map_append]
        rw [List.nodup_append]
        refine ⟨hs.1, List.nodup_singleton _, ?_⟩
        intro a ha hb
        simp only [List.map_cons, List.map_nil, List.mem_singleton] at hb
        obtain ⟨p, hpmem, hpa⟩ := List.mem_map.mp ha
        exact hnew p hpmem (by rw [hpa, hb])
      · intro p hp'
        rcases List.mem_append.mp hp' with hin | hin
        · exact hs.2 p hin
        · rw [List.mem_singleton] at hin
          subst hin
          exact List.mem_map_of_mem Prod.fst he
    | none =>
      rw [hp] at hs'
      subst hs'
      exact hs
  · rw [if_neg hc] at h
    injection h with h
    rwa [← h]

theorem foldl_noteTrigger_inv (nz : ℕ → ℕ → ℝ) (play : ℕ → Option ℕ) (key : ℕ)
    (l : List (ℕ × ℤ)) (hl : ∀ e ∈ l, e ∈ KEYBOARD_MAP) :
    ∀ s : AppState, activeKeysOK s → ∀ s' : AppState,
      l.foldl (noteTrigger nz play key) (some s) = some s' → activeKeysOK s' := by
  induction l with
  | nil =>
    intro s hs s' h
    simp only [List.foldl_nil] at h
    injection h with h
    rwa [← h]
  | cons e rest ih =>
    intro s hs s' h
    rw [List.foldl_cons] at h
    cases hnt : noteTrigger nz play key (some s) e with
    | none =>
      rw [hnt, foldl_noteTrigger_none] at h
      exact absurd h (by simp)
    | some s1 =>
      rw [hnt] at h
      have hs1 : activeKeysOK s1 :=
        noteTrigger_inv nz play key s e (hl e (List.mem_cons_self e rest)) hs s1 hnt
      exact ih (fun x hx => hl x (List.mem_cons_of_mem e hx)) s1 hs1 s' h

theorem step_inv (nz : ℕ → ℕ → ℝ) (play : ℕ → Option ℕ) (s s' : AppState)
    (e : Event) (hs : activeKeysOK s) (h : step nz play s e = some s') :
    activeKeysOK s' := by
  cases e with
  | keydown key =>
    simp only [step, stepKeydown] at h
    refine foldl_noteTrigger_inv nz play key KEYBOARD_MAP (fun x hx => hx) _
      ?_ s' h
    split_ifs <;> exact hs
  | keyup key =>
    simp only [step] at h
    injection h with h
    subst h
    by_cases hk : hasKey s.active_channels key = true
    · rw [if_pos hk]
      constructor
      · have hsub : (s.active_channels.filter fun p => ¬ p.1 = key).Sublist
            s.active_channels := List.filter_sublist _
        exact (hsub.map Prod.fst).nodup hs.1
      · intro p hp
        exact hs.2 p (List.mem_of_mem_filter hp)
    · rw [if_neg hk]
      exact hs
  | clickInstrument name =>
    simp only [step] at h
    injection h with h
    subst h
    split_ifs <;> exact hs
  | clickOctDown =>
    simp only [step] at h
    injection h with h
    subst h
    exact hs
  | clickOctUp =>
    simp only [step] at h
    injection h with h
    subst h
    exact hs
  | clickVolDown =>
    simp only [step] at h
    injection h with h
    subst h
    exact hs
  | clickVolUp =>
    simp only [step] at h
    injection h with h
    subst h
    exact hs

theorem runEvents_inv (nz : ℕ → ℕ → ℝ) (play : ℕ → Option ℕ)
    (events : List Event) (s' : AppState)
    (h : runEvents nz play events = some s') : activeKeysOK s' := by
  have general : ∀ (l : List Event) (s0 : AppState), activeKeysOK s0 →
      l.foldlM (step nz play) s0 = some s' → activeKeysOK s' := by
    intro l
    induction l with
    | nil =>
      intro s0 h0 hf
      simp only [List.foldlM_nil, pure, Option.some.injEq] at hf
      rwa [← hf]
    | cons e rest ih =>
      intro s0 h0 hf
      rw [List.foldlM_cons] at hf
      cases hstep : step nz play s0 e with
      | none =>
        rw [hstep] at hf
        exact absurd hf (by simp)
      | some s1 =>
        rw [hstep] at hf
        simp only [Option.bind_eq_bind, Option.some_bind] at hf
        exact ih s1 (step_inv nz play s0 s1 e h0 hstep) hf
  exact general events initState (by constructor <;> simp [initState]) h

theorem stepKeydown_active_noop (nz : ℕ → ℕ → ℝ) (play : ℕ → Option ℕ)
    (s : AppState) (key : ℕ) (hs : activeKeysOK s)
    (hact : hasKey s.active_channels key = true) :
    step nz play s (Event.keydown key) = some s := by
  have hkmem : key ∈ KEYBOARD_MAP.map Prod.fst := by
    obtain ⟨p, hp, hpk⟩ := (hasKey_eq_true _ _).mp hact
    exact hpk ▸ hs.2 p hp
  have hctrl : key ≠ 91 ∧ key ≠ 93 ∧ key ≠ 45 ∧ key ≠ 61 := by
    simp only [KEYBOARD_MAP, List.map_cons, List.map_nil, List.mem_cons,
      List.not_mem_nil, or_false] at hkmem
    rcases hkmem with rfl | rfl | rfl | rfl | rfl | rfl | rfl | rfl | rfl |
      rfl | rfl | rfl | rfl <;> exact ⟨by norm_num, by norm_num, by norm_num, by norm_num⟩
  simp only [step, stepKeydown]
  rw [if_neg hctrl.1, if_neg hctrl.2.1, if_neg hctrl.2.2.1, if_neg hctrl.2.2.2]
  exact foldl_noteTrigger_active nz play key s hact KEYBOARD_MAP

theorem step_keyup_removes (nz : ℕ → ℕ → ℝ) (play : ℕ → Option ℕ)
    (s : AppState) (key : ℕ) (s' : AppState)
    (h : step nz play s (Event.keyup key) = some s') :
    (∀ p ∈ s'.active_channels, p.1 ≠ key) ∧
    ∀ p ∈ s'.active_channels, p ∈ s.active_channels := by
  simp only [step] at h
  injection h with h
  subst h
  by_cases hk : hasKey s.active_channels key = true
  · rw [if_pos hk]
    constructor
    · intro p hp
      have := List.mem_filter.mp hp
      simpa using this.2
    · intro p hp
      exact List.mem_of_mem_filter hp
  · rw [if_neg hk]
    refine ⟨?_, fun p hp => hp⟩
    intro p hp hpk
    exact hk ((hasKey_eq_true _ _).mpr ⟨p, hp, hpk⟩)

/-- C9: in every state reachable by processing input events the active-note map
holds at most one playback handle per input key; a key-down for a key that is
already active is a no-op (no new render, no playback, no state change); and a
key-up removes that key's handle (and nothing else enters the map). -/
theorem C9_active_note_invariant (nz : ℕ → ℕ → ℝ) (play : ℕ → Option ℕ) :
    (∀ events s, runEvents nz play events = some s →
      (s.active_channels.map Prod.fst).Nodup) ∧
    (∀ s key, activeKeysOK s → hasKey s.active_channels key = true →
      step nz play s (Event.keydown key) = some s) ∧
    (∀ s key s', step nz play s (Event.keyup key) = some s' →
      (∀ p ∈ s'.active_channels, p.1 ≠ key) ∧
      ∀ p ∈ s'.active_channels, p ∈ s.active_channels) :=
  ⟨fun events s h => (runEvents_inv nz play events s h).1,
   fun s key hs hact => stepKeydown_active_noop nz play s key hs hact,
   fun s key s' h => step_keyup_removes nz play s key s' h⟩

/-- A concrete state with one active note (key `97`, channel 0). -/
def stateW : AppState :=
  { instrument := "Piano-ish", octave_shift := 0, volume := 0.45,
    sound_cache := [], active_channels := [(97, 0)], next_channel := 1,
    render_count := 0 }

/-- Witness for C9: with key 97 already active, a key-down for 97 is a no-op. -/
theorem C9_active_note_invariant_witness :
    activeKeysOK stateW ∧ hasKey stateW.active_channels 97 = true ∧
    step (fun _ _ => 0) (fun c => some c) stateW (Event.keydown 97) =
      some stateW :=
  ⟨by constructor <;> decide, by decide,
    (C9_active_note_invariant (fun _ _ => 0) (fun c => some c)).2.1 stateW 97
      (by constructor <;> decide) (by decide)⟩

end MusicLab
